import Mathlib

/-
Verification of the catalog/schema manager (`SmManager`) of the rucbase
storage engine, as implemented in `src/system/sm_manager.cpp`.

The C++ state of `SmManager` (the in-memory `DbMeta db_`, the record-file
handle registry `fhs_`, the index handle registry `ihs_`) together with the
parts of the environment the manager observes (the on-disk metadata file, the
record files, the index files, the database directories, the working
directory) is embedded as the structure `SmState`.  Each member function of
`SmManager` becomes a Lean function `SmState → ... → SmState × Option Err`:
the returned state carries every mutation performed up to the point where the
C++ code either returns normally (`Option Err = none`) or throws
(`Option Err = some e`), which is faithful to C++ exception semantics where
mutations made before a `throw` persist.

External collaborators (`IxManager`, `RmManager`, `DiskManager`, whose
sources are outside this translation unit) are modelled from the spec's
interface description: the canonical index name is a deterministic function
of table name and ordered column names, index insertion reports a duplicate
exactly when the key is already present, record scans enumerate the live
records in order.  A `trace` of externally visible collaborator events
(close/destroy calls, key-buffer allocation/release) is accumulated so that
ordering properties can be stated.
-/

namespace Rucbase

/-- Column type tag, from the spec's column type set (INT, FLOAT, fixed
length CHAR/STRING); `sm_manager.cpp` consumes it opaquely. -/
inductive ColType where
  | INT
  | FLOAT
  | CHAR
deriving DecidableEq, Repr

/-- Column definition as passed to `create_table` (`ColDef` in the C++
code): name, type, byte length. -/
structure ColDef where
  name : String
  type : ColType
  len : Nat
deriving DecidableEq, Repr

/-- Column metadata (`ColMeta`): owning table, name, type, byte length,
byte offset inside a record, and the `index` flag. -/
structure ColMeta where
  tab_name : String
  name : String
  type : ColType
  len : Nat
  offset : Nat
  index : Bool
deriving DecidableEq, Repr

/-- Index metadata (`IndexMeta`): owning table, total key byte length,
number of key columns, and the ordered key-column copies. -/
structure IndexMeta where
  tab_name : String
  col_tot_len : Nat
  col_num : Nat
  cols : List ColMeta
deriving DecidableEq, Repr

/-- Table metadata (`TabMeta`): name, ordered column sequence, index set. -/
structure TabMeta where
  name : String
  cols : List ColMeta
  indexes : List IndexMeta
deriving DecidableEq, Repr

/-- Database metadata (`DbMeta`): database name and the table map `tabs_`,
embedded as an association list with unique keys. -/
structure DbMeta where
  name_ : String
  tabs_ : List (String × TabMeta)
deriving DecidableEq, Repr

/-- An open B+-tree index handle (`IxIndexHandle`), modelled by the multiset
of (key bytes, record id) entries it holds, in insertion order. -/
structure IxHandle where
  entries : List (List Nat × Nat)
deriving DecidableEq, Repr

/-- An on-disk record file (`RmFileHandle`-visible content): the fixed
record size and the live records, each a (record id, raw bytes) pair in scan
order.  Record ids and bytes are opaque naturals. -/
structure RmFile where
  record_size : Nat
  records : List (Nat × List Nat)
deriving DecidableEq, Repr

/-- Caller-supplied context (`Context*`); only its transaction pointer
`txn_` is dereferenced by `create_index`.  A null `Context*` is `none` at
the call sites. -/
structure Context where
  txn_ : Nat
deriving DecidableEq, Repr

/-- Error kinds thrown by `sm_manager.cpp` (`DatabaseNotFoundError`,
`DatabaseExistsError`, `TableNotFoundError`, `TableExistsError`,
`IndexNotFoundError`, `IndexExistsError`, `ColumnNotFoundError`,
`UnixError`), plus two outcomes for undefined behaviour the C++ code can
reach: dereferencing a null handle (`nullHandle`) and dereferencing a null
`Context*` (`nullDeref`). -/
inductive Err where
  | databaseNotFound
  | databaseExists
  | tableNotFound
  | tableExists
  | indexNotFound
  | indexExists
  | columnNotFound
  | unixError
  | nullHandle
  | nullDeref
deriving DecidableEq, Repr

/-- Classifies the NotFound-kind error values (database/table/index/column
absent), the spec's `NotFound` family. -/
def Err.isNotFound : Err → Bool
  | .databaseNotFound => true
  | .tableNotFound => true
  | .indexNotFound => true
  | .columnNotFound => true
  | _ => false

/-- Externally visible collaborator events, recorded in call order. -/
inductive Event where
  | closeFile (name : String)
  | destroyFile (name : String)
  | closeIndex (ix_name : String)
  | destroyIndex (ix_name : String)
  | allocKey
  | freeKey
deriving DecidableEq, Repr

/-- The full observable state of an `SmManager` instance and its
environment.  `cwd` is the process working directory as a stack of
components, innermost first (the root is `[]`); `dirs` is the set of
directories existing on the filesystem, each as an absolute path in the
same innermost-first representation, so a name `n` resolved relative to the
working directory denotes the path `n :: cwd`. -/
structure SmState where
  db_ : DbMeta
  fhs_ : List (String × String)
  ihs_ : List (String × IxHandle)
  rm_files : List (String × RmFile)
  ix_files : List String
  dirs : List (List String)
  metaFile : Option DbMeta
  cwd : List String
  trace : List Event
deriving DecidableEq, Repr

/-- Lookup in an association list with string keys (`std::map::find` /
`std::map::at`). -/
def assocLookup {α : Type} : List (String × α) → String → Option α
  | [], _ => none
  | (k', v) :: rest, k => if k' = k then some v else assocLookup rest k

/-- Key removal from an association list (`std::map::erase`). -/
def assocErase {α : Type} : List (String × α) → String → List (String × α)
  | [], _ => []
  | (k', v) :: rest, k =>
      if k' = k then assocErase rest k else (k', v) :: assocErase rest k

/-- Insert-or-assign on an association list (`map[k] = v`). -/
def assocInsert {α : Type} : List (String × α) → String → α → List (String × α)
  | [], k, v => [(k, v)]
  | (k', v') :: rest, k, v =>
      if k' = k then (k, v) :: rest else (k', v') :: assocInsert rest k v

/-- Insert-if-absent on an association list (`std::map::emplace`). -/
def assocEmplace {α : Type} (l : List (String × α)) (k : String) (v : α) :
    List (String × α) :=
  if (assocLookup l k).isSome then l else l ++ [(k, v)]

/-- Modelled from the spec: the index-store collaborator's
`CanonicalName(table, columnNames)` (`IxManager::get_index_name`, whose
source is outside this translation unit) — a deterministic file name derived
from the table name and the ordered key-column names. -/
def get_index_name (tab : String) (names : List String) : String :=
  tab ++ String.join (names.map (fun n => "_" ++ n)) ++ ".idx"

/-- Modelled from the spec: the `IxManager::get_index_name` overload taking
column metadata derives the same canonical name from the columns' names. -/
def get_index_name_cols (tab : String) (cols : List ColMeta) : String :=
  get_index_name tab (cols.map ColMeta.name)

/-- Modelled from the spec: `coltype2str`, the type tag rendered for
`desc_table` output. -/
def coltype2str : ColType → String
  | .INT => "INT"
  | .FLOAT => "FLOAT"
  | .CHAR => "CHAR"

/-- The rows `SmManager::desc_table` prints for a table: one row
(name, type string, indexed flag as YES/NO) per column, in column order
(`sm_manager.cpp` lines 211-216). -/
def descRows (tab : TabMeta) : List (List String) :=
  tab.cols.map (fun cm => [cm.name, coltype2str cm.type,
    if cm.index then "YES" else "NO"])

/-- Modelled from the spec: `TabMeta::get_col` resolves a column name to the
first matching column of the table. -/
def TabMeta.get_col (tab : TabMeta) (n : String) : Option ColMeta :=
  tab.cols.find? (fun cm => cm.name == n)

/-- Modelled from the spec: `TabMeta::get_index_meta` finds the index whose
ordered key-column names equal the given list (index identity =
(table, ordered column-name list)). -/
def TabMeta.get_index_meta (tab : TabMeta) (names : List String) :
    Option IndexMeta :=
  tab.indexes.find? (fun i => i.cols.map ColMeta.name == names)

/-- Resolution of a column-name list against a table, as done by the
`get_col` loop of `create_index` (`sm_manager.cpp` lines 296-302); fails on
the first unknown column. -/
def resolveCols (tab : TabMeta) (names : List String) : Option (List ColMeta) :=
  names.mapM (fun n => tab.get_col n)

/-- `SmManager::flush_meta` (lines 139-143): serializes the current `db_`
wholesale into the unit's metadata file. -/
def flushMeta (st : SmState) : SmState :=
  { st with metaFile := some st.db_ }

/-- `SmManager::open_db` (lines 78-120).  First checks `is_dir(db_name)`
(line 83): `is_dir` calls `stat` on the bare name, so it resolves relative
to the process working directory — the check is whether the directory
`db_name :: st.cwd` exists, which while a database is open means a directory
nested inside the open unit.  Then checks no database is already open
(line 88), enters the directory, loads the metadata, opens one record handle
per table and, for each index of each table, computes the canonical index
name but registers the opened index handle under the TABLE name via
`emplace` (line 114 uses `tab.name`, not `index_name`).  An opened index
handle's on-disk entries are not tracked, so it is modelled as empty. -/
def open_db (st : SmState) (db_name : String) : SmState × Option Err :=
  if (db_name :: st.cwd) ∉ st.dirs then (st, some .databaseNotFound)
  else if st.db_.name_ ≠ "" then (st, some .databaseExists)
  else
    let st1 := { st with cwd := db_name :: st.cwd }
    match st1.metaFile with
    | none => (st1, some .unixError)
    | some meta =>
      let st2 := { st1 with db_ := meta }
      let st3 := meta.tabs_.foldl (fun s entry =>
        let tab := entry.2
        let s1 := { s with fhs_ := assocEmplace s.fhs_ tab.name tab.name }
        tab.indexes.foldl (fun s2 _ =>
          { s2 with ihs_ := assocEmplace s2.ihs_ tab.name ⟨[]⟩ }) s1) st2
      (st3, none)

/-- `SmManager::close_db` (lines 148-173).  Flushes the metadata, then the
statement `std::ofstream ofs(DB_META_NAME);` on line 151 reopens the
metadata file with default (truncating) flags, leaving it empty (modelled as
`metaFile := none`); then clears the database name and table map, closes and
clears both handle registries, and returns to the parent directory. -/
def close_db (st : SmState) : SmState × Option Err :=
  let st1 := flushMeta st
  let st2 := { st1 with metaFile := none }
  let st3 := { st2 with db_ := ⟨"", []⟩ }
  let st4 := { st3 with
    trace := st3.trace ++ st3.fhs_.map (fun p : String × String => Event.closeFile p.1),
    fhs_ := [] }
  let st5 := { st4 with
    trace := st4.trace ++ st4.ihs_.map (fun p : String × IxHandle => Event.closeIndex p.1),
    ihs_ := [] }
  ({ st5 with cwd := st5.cwd.tail }, none)

/-- Offset assignment of `create_table` (lines 231-243): each column gets
the running offset, which then advances by the column's length; the `index`
flag is initialized to `false`. -/
def buildCols (tab_name : String) : List ColDef → Nat → List ColMeta
  | [], _ => []
  | d :: rest, curr_offset =>
      { tab_name := tab_name, name := d.name, type := d.type, len := d.len,
        offset := curr_offset, index := false }
        :: buildCols tab_name rest (curr_offset + d.len)

/-- `SmManager::create_table` (lines 226-253).  Fails if the table exists;
builds the column metadata with accumulated offsets; creates the record file
with record size = total column length; inserts the `TabMeta`; opens and
registers the record handle; flushes the metadata. -/
def create_table (st : SmState) (tab_name : String) (col_defs : List ColDef) :
    SmState × Option Err :=
  if (assocLookup st.db_.tabs_ tab_name).isSome then (st, some .tableExists)
  else
    let cols := buildCols tab_name col_defs 0
    let record_size := (col_defs.map ColDef.len).sum
    let tab : TabMeta := ⟨tab_name, cols, []⟩
    let st1 := { st with
      rm_files := assocInsert st.rm_files tab_name ⟨record_size, []⟩ }
    let st2 := { st1 with
      db_ := { st1.db_ with tabs_ := assocInsert st1.db_.tabs_ tab_name tab } }
    let st3 := { st2 with fhs_ := assocEmplace st2.fhs_ tab_name tab_name }
    (flushMeta st3, none)

/-- The per-index body of `drop_table`'s loop (lines 264-269): close the
index handle registered under the canonical name, destroy the on-disk index
structure, erase the registry entry. -/
def dropIndexStep (tab_name : String) (s : SmState) (i : IndexMeta) : SmState :=
  let ix_name := get_index_name_cols tab_name i.cols
  let s1 := { s with trace := s.trace ++ [Event.closeIndex ix_name] }
  let s2 := { s1 with ix_files := s1.ix_files.erase ix_name,
                      trace := s1.trace ++ [Event.destroyIndex ix_name] }
  { s2 with ihs_ := assocErase s2.ihs_ ix_name }

/-- `SmManager::drop_table` (lines 260-274).  Fails if the table is absent;
closes and destroys the record file; for every index of the table closes its
handle, destroys its structure and erases its registry entry; erases the
table from the catalog and the record-handle registry; flushes the
metadata. -/
def drop_table (st : SmState) (tab_name : String) : SmState × Option Err :=
  match assocLookup st.db_.tabs_ tab_name with
  | none => (st, some .tableNotFound)
  | some tab =>
    let st1 := { st with trace := st.trace ++ [Event.closeFile tab_name] }
    let st2 := { st1 with rm_files := assocErase st1.rm_files tab_name,
                          trace := st1.trace ++ [Event.destroyFile tab_name] }
    let st3 := tab.indexes.foldl (dropIndexStep tab_name) st2
    let st4 := { st3 with
      db_ := { st3.db_ with tabs_ := assocErase st3.db_.tabs_ tab_name },
      fhs_ := assocErase st3.fhs_ tab_name }
    (flushMeta st4, none)

/-- The composite key built for one record by `create_index`'s inner loop
(lines 313-317): the concatenation, in index column order, of each resolved
column's byte range copied from the record data. -/
def makeKey : List ColMeta → List Nat → List Nat
  | [], _ => []
  | cm :: rest, data => (data.drop cm.offset).take cm.len ++ makeKey rest data

/-- Modelled from the spec: the index-store collaborator's
`Insert(keyBytes, recordId, txn)` (`IxIndexHandle::insert_entry`) appends
the entry and reports a duplicate (the C++ `IX_NO_PAGE` return) exactly when
the key is already present. -/
def IxHandle.insert_entry (ih : IxHandle) (key : List Nat) (rid : Nat) :
    Option IxHandle :=
  if key ∈ ih.entries.map Prod.fst then none
  else some ⟨ih.entries ++ [(key, rid)]⟩

/-- Outcome of the scan-and-insert loop of `create_index`. -/
inductive BuildResult where
  | ok (ih : IxHandle)
  | dup
  | nullDeref
deriving DecidableEq, Repr

/-- The scan loop of `create_index` (lines 310-328): for each live record,
build the composite key, dereference `context->txn_` (undefined behaviour if
the context is null), and insert into the new index; stops at the first
duplicate. -/
def buildEntries (cols : List ColMeta) (ctx : Option Context) :
    List (Nat × List Nat) → IxHandle → BuildResult
  | [], ih => .ok ih
  | r :: rest, ih =>
    let key := makeKey cols r.2
    match ctx with
    | none => .nullDeref
    | some _ =>
      match ih.insert_entry key r.1 with
      | none => .dup
      | some ih' => buildEntries cols ctx rest ih'

/-- `SmManager::create_index` (lines 282-345).  Fails `IndexExists` if the
canonical index file exists; resolves the columns (failing on a missing
table or column); creates the index file and an empty handle; allocates the
key buffer; scans the table's record file building and inserting one
composite key per live record.  On a duplicate key it releases the buffer,
closes the handle, destroys the index file and returns silently.  On success
it releases the buffer, appends the new `IndexMeta`, registers the handle
under the canonical name, and flushes the metadata. -/
def create_index (st : SmState) (tab_name : String) (col_names : List String)
    (ctx : Option Context) : SmState × Option Err :=
  let ix_name := get_index_name tab_name col_names
  if ix_name ∈ st.ix_files then (st, some .indexExists)
  else
    match assocLookup st.db_.tabs_ tab_name with
    | none => (st, some .tableNotFound)
    | some table_meta =>
      match resolveCols table_meta col_names with
      | none => (st, some .columnNotFound)
      | some col_metas =>
        let total_len := (col_metas.map ColMeta.len).sum
        let st1 := { st with ix_files := ix_name :: st.ix_files }
        match assocLookup st.rm_files tab_name with
        | none => (st1, some .nullHandle)
        | some rmf =>
          let st2 := { st1 with trace := st1.trace ++ [Event.allocKey] }
          match buildEntries col_metas ctx rmf.records ⟨[]⟩ with
          | .nullDeref => (st2, some .nullDeref)
          | .dup =>
            let st3 := { st2 with
              trace := st2.trace ++ [Event.freeKey, Event.closeIndex ix_name] }
            let st4 := { st3 with
              ix_files := st3.ix_files.erase ix_name,
              trace := st3.trace ++ [Event.destroyIndex ix_name] }
            (st4, none)
          | .ok ih =>
            let st3 := { st2 with trace := st2.trace ++ [Event.freeKey] }
            let index_meta : IndexMeta :=
              ⟨tab_name, total_len, col_names.length, col_metas⟩
            let table' := { table_meta with
              indexes := table_meta.indexes ++ [index_meta] }
            let st4 := { st3 with
              db_ := { st3.db_ with
                tabs_ := assocInsert st3.db_.tabs_ tab_name table' } }
            let st5 := { st4 with ihs_ := assocInsert st4.ihs_ ix_name ih }
            (flushMeta st5, none)

/-- `SmManager::drop_index` by column names (lines 355-382).  Looks up the
table (throwing `TableNotFound` if absent); fails `IndexNotFound` if the
canonical index file is absent; closes the handle, destroys the structure,
erases the registry entry; then removes the matching `IndexMeta` from the
table and flushes the metadata. -/
def drop_index_names (st : SmState) (tab_name : String)
    (col_names : List String) : SmState × Option Err :=
  match assocLookup st.db_.tabs_ tab_name with
  | none => (st, some .tableNotFound)
  | some table_meta =>
    let ix_name := get_index_name tab_name col_names
    if ix_name ∉ st.ix_files then (st, some .indexNotFound)
    else
      let st1 := { st with trace := st.trace ++ [Event.closeIndex ix_name] }
      let st2 := { st1 with ix_files := st1.ix_files.erase ix_name,
                            trace := st1.trace ++ [Event.destroyIndex ix_name] }
      let st3 := { st2 with ihs_ := assocErase st2.ihs_ ix_name }
      match table_meta.get_index_meta col_names with
      | none => (st3, some .indexNotFound)
      | some index =>
        let table' := { table_meta with
          indexes := table_meta.indexes.filter (fun i => !decide (i = index)) }
        let st4 := { st3 with
          db_ := { st3.db_ with
            tabs_ := assocInsert st3.db_.tabs_ tab_name table' } }
        (flushMeta st4, none)

/-- `SmManager::drop_index` by column metadata (lines 390-422).  Identical
to the by-names overload except that the canonical name is derived from the
column metadata and the name list is rebuilt from the columns' names. -/
def drop_index_cols (st : SmState) (tab_name : String) (cols : List ColMeta) :
    SmState × Option Err :=
  match assocLookup st.db_.tabs_ tab_name with
  | none => (st, some .tableNotFound)
  | some table_meta =>
    let ix_name := get_index_name_cols tab_name cols
    let col_names := cols.map ColMeta.name
    if ix_name ∉ st.ix_files then (st, some .indexNotFound)
    else
      let st1 := { st with trace := st.trace ++ [Event.closeIndex ix_name] }
      let st2 := { st1 with ix_files := st1.ix_files.erase ix_name,
                            trace := st1.trace ++ [Event.destroyIndex ix_name] }
      let st3 := { st2 with ihs_ := assocErase st2.ihs_ ix_name }
      match table_meta.get_index_meta col_names with
      | none => (st3, some .indexNotFound)
      | some index =>
        let table' := { table_meta with
          indexes := table_meta.indexes.filter (fun i => !decide (i = index)) }
        let st4 := { st3 with
          db_ := { st3.db_ with
            tabs_ := assocInsert st3.db_.tabs_ tab_name table' } }
        (flushMeta st4, none)

/-! Concrete fixtures used to exercise the operations. -/

/-- A 4-byte INT column `a` of table `t` at offset 0. -/
def colMetaA : ColMeta := ⟨"t", "a", ColType.INT, 4, 0, false⟩

/-- An 8-byte CHAR column `b` of table `t` at offset 4. -/
def colMetaB : ColMeta := ⟨"t", "b", ColType.CHAR, 8, 4, false⟩

/-- Table `t` with columns `a`, `b` and no indexes. -/
def tab0 : TabMeta := ⟨"t", [colMetaA, colMetaB], []⟩

/-- Database `d` containing table `t`. -/
def db0 : DbMeta := ⟨"d", [("t", tab0)]⟩

/-- An open-database state: `d` is open, table `t` has two live records with
distinct first columns. -/
def stBase : SmState :=
  { db_ := db0, fhs_ := [("t", "t")], ihs_ := [],
    rm_files := [("t", ⟨12, [(0, List.replicate 12 0),
                             (1, 1 :: List.replicate 11 0)]⟩)],
    ix_files := [], dirs := [["d"]], metaFile := some db0, cwd := ["d"],
    trace := [] }

/-- Like `stBase` but the two records agree on column `a`, so a single
column index on `a` has a duplicate composite key. -/
def stDup : SmState :=
  { stBase with
    rm_files := [("t", ⟨12, [(0, List.replicate 12 0),
                             (1, 0 :: 0 :: 0 :: 0 :: List.replicate 8 1)]⟩)] }

/-- An open, empty database `d`: no tables, no handles; the working
directory is inside the unit `d`, which is the only directory on disk. -/
def stOpenEmpty : SmState :=
  { db_ := ⟨"d", []⟩, fhs_ := [], ihs_ := [], rm_files := [], ix_files := [],
    dirs := [["d"]], metaFile := some ⟨"d", []⟩, cwd := ["d"], trace := [] }

/-- Like `stOpenEmpty`, but a directory `e` also exists nested inside the
open unit `d` (absolute path `d/e`), e.g. left by a `create_db` issued while
`d` was open. -/
def stNested : SmState :=
  { db_ := ⟨"d", []⟩, fhs_ := [], ihs_ := [], rm_files := [], ix_files := [],
    dirs := [["d"], ["e", "d"]], metaFile := some ⟨"d", []⟩, cwd := ["d"],
    trace := [] }

/-- A single-column index of `t` on `a`. -/
def idxA : IndexMeta := ⟨"t", 4, 1, [colMetaA]⟩

/-- A single-column index of `t` on `b`. -/
def idxB : IndexMeta := ⟨"t", 8, 1, [colMetaB]⟩

/-- Table `t` carrying the two indexes `idxA` and `idxB`. -/
def tab2 : TabMeta := ⟨"t", [colMetaA, colMetaB], [idxA, idxB]⟩

/-- An open-database state where table `t` carries the two indexes of
`tab2`, with both index files on disk and both handles registered under
their canonical names. -/
def stBase2Idx : SmState :=
  { db_ := ⟨"d", [("t", tab2)]⟩, fhs_ := [("t", "t")],
    ihs_ := [(get_index_name "t" ["a"], ⟨[]⟩),
             (get_index_name "t" ["b"], ⟨[]⟩)],
    rm_files := [("t", ⟨12, []⟩)],
    ix_files := [get_index_name "t" ["a"], get_index_name "t" ["b"]],
    dirs := [["d"]], metaFile := some ⟨"d", [("t", tab2)]⟩, cwd := ["d"],
    trace := [] }

/-- A closed-manager state in front of database `d` whose stored metadata
declares table `t` with two indexes; both index files exist on disk. -/
def stClosed2 : SmState :=
  { db_ := ⟨"", []⟩, fhs_ := [], ihs_ := [], rm_files := [("t", ⟨12, []⟩)],
    ix_files := [get_index_name "t" ["a"], get_index_name "t" ["b"]],
    dirs := [["d"]], metaFile := some ⟨"d", [("t", tab2)]⟩, cwd := [],
    trace := [] }

/-! Association-list lemmas. -/

theorem assocLookup_erase_self {α : Type} (l : List (String × α)) (k : String) :
    assocLookup (assocErase l k) k = none := by
  induction l with
  | nil => rfl
  | cons p rest ih =>
    obtain ⟨k', v⟩ := p
    by_cases h : k' = k
    · simpa [assocErase, h] using ih
    · simpa [assocErase, assocLookup, h] using ih

theorem assocLookup_erase_ne {α : Type} (l : List (String × α)) {k k' : String}
    (h : k' ≠ k) : assocLookup (assocErase l k') k = assocLookup l k := by
  induction l with
  | nil => rfl
  | cons p rest ih =>
    obtain ⟨k0, v⟩ := p
    by_cases h0 : k0 = k'
    · subst h0
      simp [assocErase, assocLookup, h, ih]
    · by_cases h1 : k0 = k <;>
        simp [assocErase, assocLookup, h0, h1, Ne.symm h, ih]

theorem assocLookup_erase_none {α : Type} (l : List (String × α))
    (k k' : String) (h : assocLookup l k = none) :
    assocLookup (assocErase l k') k = none := by
  by_cases hk : k' = k
  · subst hk; exact assocLookup_erase_self l k'
  · rw [assocLookup_erase_ne l hk]; exact h

theorem assocLookup_insert_self {α : Type} (l : List (String × α))
    (k : String) (v : α) : assocLookup (assocInsert l k v) k = some v := by
  induction l with
  | nil => simp [assocInsert, assocLookup]
  | cons p rest ih =>
    obtain ⟨k0, v0⟩ := p
    by_cases h0 : k0 = k <;> simp [assocInsert, assocLookup, h0, ih]

theorem assocLookup_insert_ne {α : Type} (l : List (String × α))
    {k k' : String} (v : α) (h : k' ≠ k) :
    assocLookup (assocInsert l k' v) k = assocLookup l k := by
  induction l with
  | nil => simp [assocInsert, assocLookup, h]
  | cons p rest ih =>
    obtain ⟨k0, v0⟩ := p
    by_cases h0 : k0 = k'
    · subst h0
      simp [assocInsert, assocLookup, h, ih]
    · by_cases h1 : k0 = k <;>
        simp [assocInsert, assocLookup, h0, h1, Ne.symm h, ih]

/-! Lemmas about composite-key construction and the index-build loop. -/

/-- When every resolved column's byte range fits inside the record, the
composite key's length is the sum of the resolved columns' lengths. -/
theorem makeKey_length (cols : List ColMeta) (data : List Nat)
    (h : ∀ cm ∈ cols, cm.offset + cm.len ≤ data.length) :
    (makeKey cols data).length = (cols.map ColMeta.len).sum := by
  induction cols with
  | nil => rfl
  | cons cm rest ih =>
    have h1 : cm.offset + cm.len ≤ data.length := h cm (by simp)
    have h2 := ih (fun c hc => h c (by simp [hc]))
    simp only [makeKey, List.length_append, List.length_take,
      List.length_drop, List.map_cons, List.sum_cons, h2]
    omega

/-- If all the composite keys to be inserted are fresh and pairwise
distinct, the scan loop succeeds and appends exactly one (key, record id)
entry per live record, in scan order. -/
theorem buildEntries_ok (cols : List ColMeta) (c : Context) :
    ∀ (rs : List (Nat × List Nat)) (ih : IxHandle),
    (ih.entries.map Prod.fst ++ rs.map (fun r => makeKey cols r.2)).Nodup →
    buildEntries cols (some c) rs ih =
      .ok ⟨ih.entries ++ rs.map (fun r => (makeKey cols r.2, r.1))⟩ := by
  intro rs
  induction rs with
  | nil => intro ih _; simp [buildEntries]
  | cons r rest IH =>
    intro ih h
    rcases List.nodup_append.mp h with ⟨_, _, hdisj⟩
    have hnotin : makeKey cols r.2 ∉ ih.entries.map Prod.fst :=
      fun hmem => hdisj hmem (by simp)
    have hins : ih.insert_entry (makeKey cols r.2) r.1 =
        some ⟨ih.entries ++ [(makeKey cols r.2, r.1)]⟩ := by
      simp [IxHandle.insert_entry, hnotin]
    have hnodup : ((⟨ih.entries ++ [(makeKey cols r.2, r.1)]⟩ :
        IxHandle).entries.map Prod.fst ++
        rest.map (fun r => makeKey cols r.2)).Nodup := by
      simpa [List.append_assoc] using h
    simp only [buildEntries, hins]
    rw [IH _ hnodup]
    simp

/-- With a non-null context the scan loop never reaches the
null-dereference outcome. -/
theorem buildEntries_some_ne_nullDeref (cols : List ColMeta) (c : Context) :
    ∀ (rs : List (Nat × List Nat)) (ih : IxHandle),
    buildEntries cols (some c) rs ih ≠ .nullDeref := by
  intro rs
  induction rs with
  | nil => intro ih; simp [buildEntries]
  | cons r rest IH =>
    intro ih
    simp only [buildEntries]
    cases ih.insert_entry (makeKey cols r.2) r.1 with
    | none => simp
    | some ih' => exact IH ih'

/-! Lemmas about `create_table`'s offset assignment. -/

theorem buildCols_length (tab_name : String) :
    ∀ (defs : List ColDef) (base : Nat),
    (buildCols tab_name defs base).length = defs.length := by
  intro defs
  induction defs with
  | nil => intro base; rfl
  | cons d rest ih => intro base; simp [buildCols, ih]

/-- Each built column's offset is the base plus the sum of the lengths of
the columns declared before it. -/
theorem buildCols_offset (tab_name : String) :
    ∀ (defs : List ColDef) (base : Nat) (i : Nat)
      (hi : i < (buildCols tab_name defs base).length),
    (buildCols tab_name defs base)[i].offset =
      base + ((defs.take i).map ColDef.len).sum := by
  intro defs
  induction defs with
  | nil => intro base i hi; simp [buildCols] at hi
  | cons d rest ih =>
    intro base i hi
    cases i with
    | zero => simp [buildCols]
    | succ j =>
      have hj : j < (buildCols tab_name rest (base + d.len)).length := by
        simpa [buildCols] using hi
      have := ih (base + d.len) j hj
      simp only [buildCols, List.getElem_cons_succ, this, List.take_succ_cons,
        List.map_cons, List.sum_cons]
      omega

/-! Theorems for the spec claims. -/

/-- C1: the claim states that after `close_db` returns, the metadata file
contains the full serialization of the `DbMeta` as of close time.  The code
does flush first and does clear the in-memory `DbMeta` and both handle
registries, but the stray `std::ofstream ofs(DB_META_NAME);` on line 151
reopens the metadata file with truncating flags right after `flush_meta`,
so the file ends up empty — it is not the serialization of any `DbMeta`. -/
theorem close_db_truncates_meta (st : SmState) :
    (close_db st).2 = none ∧
    (close_db st).1.metaFile = none ∧
    (∀ d : DbMeta, (close_db st).1.metaFile ≠ some d) ∧
    (close_db st).1.db_.name_ = "" ∧
    (close_db st).1.db_.tabs_ = [] ∧
    (close_db st).1.fhs_ = [] ∧
    (close_db st).1.ihs_ = [] := by
  simp [close_db, flushMeta]

/-- C2: the claim states that after `open_db` the index-handle registry is
in one-to-one correspondence with the `IndexMeta` entries, each registered
under the canonical index name.  Opening a database whose metadata declares
one table with two indexes instead yields a single registry entry keyed by
the table name `t` (line 114 passes `tab.name`, not the computed
`index_name`, to `emplace`, which also deduplicates), and neither canonical
index name appears among the registry keys. -/
theorem open_db_misregisters_index_handles :
    (open_db stClosed2 "d").2 = none ∧
    ((open_db stClosed2 "d").1.db_.tabs_.map
      (fun p => p.2.indexes.length)).sum = 2 ∧
    (open_db stClosed2 "d").1.ihs_.map Prod.fst = ["t"] ∧
    get_index_name "t" ["a"] ∉ (open_db stClosed2 "d").1.ihs_.map Prod.fst ∧
    get_index_name "t" ["b"] ∉ (open_db stClosed2 "d").1.ihs_.map Prod.fst := by
  decide

/-- C5: `create_table` assigns each column's byte offset as the sum of the
lengths of the columns declared before it (the first column at offset 0)
and creates the record file with record size equal to the sum of all column
lengths. -/
theorem create_table_offsets (st : SmState) (tab_name : String)
    (defs : List ColDef) (h : assocLookup st.db_.tabs_ tab_name = none) :
    (create_table st tab_name defs).2 = none ∧
    ∃ tab : TabMeta,
      assocLookup (create_table st tab_name defs).1.db_.tabs_ tab_name =
        some tab ∧
      tab.cols.length = defs.length ∧
      (∀ (i : Nat) (hi : i < tab.cols.length),
        tab.cols[i].offset = ((defs.take i).map ColDef.len).sum) ∧
      assocLookup (create_table st tab_name defs).1.rm_files tab_name =
        some ⟨(defs.map ColDef.len).sum, []⟩ := by
  simp only [create_table, h, Option.isSome_none, Bool.false_eq_true,
    if_false, flushMeta]
  refine ⟨trivial, ⟨tab_name, buildCols tab_name defs 0, []⟩, ?_, ?_, ?_, ?_⟩
  · exact assocLookup_insert_self _ _ _
  · exact buildCols_length tab_name defs 0
  · intro i hi
    simpa using buildCols_offset tab_name defs 0 i hi
  · exact assocLookup_insert_self _ _ _

/-- C5 witness: `CreateTable("t", [(a,INT,4),(b,CHAR,8)])` on an open empty
database yields offsets a = 0, b = 4 and record size 12. -/
theorem create_table_offsets_witness :
    (create_table stOpenEmpty "t" [⟨"a", ColType.INT, 4⟩,
        ⟨"b", ColType.CHAR, 8⟩]).2 = none ∧
    ∃ tab : TabMeta,
      assocLookup (create_table stOpenEmpty "t" [⟨"a", ColType.INT, 4⟩,
          ⟨"b", ColType.CHAR, 8⟩]).1.db_.tabs_ "t" = some tab ∧
      tab.cols.length = ([⟨"a", ColType.INT, 4⟩,
          ⟨"b", ColType.CHAR, 8⟩] : List ColDef).length ∧
      (∀ (i : Nat) (hi : i < tab.cols.length),
        tab.cols[i].offset = ((([⟨"a", ColType.INT, 4⟩,
            ⟨"b", ColType.CHAR, 8⟩] : List ColDef).take i).map
            ColDef.len).sum) ∧
      assocLookup (create_table stOpenEmpty "t" [⟨"a", ColType.INT, 4⟩,
          ⟨"b", ColType.CHAR, 8⟩]).1.rm_files "t" =
        some ⟨(([⟨"a", ColType.INT, 4⟩,
            ⟨"b", ColType.CHAR, 8⟩] : List ColDef).map ColDef.len).sum, []⟩ :=
  create_table_offsets stOpenEmpty "t"
    [⟨"a", ColType.INT, 4⟩, ⟨"b", ColType.CHAR, 8⟩] (by decide)

/-- C7 counterexample: with database `d` already open, re-opening `d`
itself — a unit that does exist on disk, at the root — fails
`DatabaseNotFound`, not the already-open `DatabaseExists` failure the claim
requires for every database name: the `is_dir` check on line 83 runs before
the already-open check on line 88 and resolves the name relative to the
working directory, which is inside the open unit, where no directory `d`
exists. -/
theorem open_db_already_open_counterexample :
    stOpenEmpty.db_.name_ ≠ "" ∧
    (["d"] : List String) ∈ stOpenEmpty.dirs ∧
    (open_db stOpenEmpty "d").2 = some Err.databaseNotFound ∧
    (open_db stOpenEmpty "d").2 ≠ some Err.databaseExists := by
  decide

/-- C7 (amended): `open_db` while a database is already open always fails
and returns the state completely unmodified (catalog, both registries,
working directory), but the error is the already-open failure only when a
directory of that name exists relative to the current working directory —
which, a database being open, lies inside the open unit; for every other
name, including every root-level unit, the cwd-relative existence check
fails first with `DatabaseNotFound`. -/
theorem open_db_while_open_no_side_effects (st : SmState) (name : String)
    (h : st.db_.name_ ≠ "") :
    ((name :: st.cwd) ∈ st.dirs →
      open_db st name = (st, some Err.databaseExists)) ∧
    ((name :: st.cwd) ∉ st.dirs →
      open_db st name = (st, some Err.databaseNotFound)) := by
  constructor
  · intro h1
    simp [open_db, h1, h]
  · intro h1
    simp [open_db, h1]

/-- C7 witness: with `d` open and a directory `e` nested inside the open
unit, `open_db e` fails already-open with the state unchanged. -/
theorem open_db_while_open_no_side_effects_witness :
    open_db stNested "e" = (stNested, some Err.databaseExists) :=
  (open_db_while_open_no_side_effects stNested "e" (by decide)).1 (by decide)

/-- C3: when an insertion during the index build reports a duplicate key,
`create_index` destroys the new index structure and its file, releases the
key buffer, and returns without any catalog change, without registering a
handle, and without signaling an error: the catalog, the index-handle
registry and the persisted metadata file are exactly as before the call,
the canonical index file is absent, and the trace shows the buffer release,
the handle close and the file destruction. -/
theorem create_index_duplicate_silent_abort (st : SmState) (tab_name : String)
    (col_names : List String) (ctx : Option Context) (tab : TabMeta)
    (cols : List ColMeta) (rmf : RmFile)
    (h1 : get_index_name tab_name col_names ∉ st.ix_files)
    (h2 : assocLookup st.db_.tabs_ tab_name = some tab)
    (h3 : resolveCols tab col_names = some cols)
    (h4 : assocLookup st.rm_files tab_name = some rmf)
    (h5 : buildEntries cols ctx rmf.records ⟨[]⟩ = .dup) :
    (create_index st tab_name col_names ctx).2 = none ∧
    (create_index st tab_name col_names ctx).1.db_ = st.db_ ∧
    (create_index st tab_name col_names ctx).1.ihs_ = st.ihs_ ∧
    (create_index st tab_name col_names ctx).1.metaFile = st.metaFile ∧
    (create_index st tab_name col_names ctx).1.ix_files = st.ix_files ∧
    get_index_name tab_name col_names ∉
      (create_index st tab_name col_names ctx).1.ix_files ∧
    (create_index st tab_name col_names ctx).1.trace = st.trace ++
      [Event.allocKey, Event.freeKey,
       Event.closeIndex (get_index_name tab_name col_names),
       Event.destroyIndex (get_index_name tab_name col_names)] := by
  simp only [create_index]
  rw [if_neg h1]
  simp only [h2, h3, h4, h5]
  refine ⟨trivial, trivial, trivial, trivial, ?_, ?_, by simp⟩
  · simp
  · simpa using h1

/-- C3 witness: on `stDup`, whose two records of `t` agree on column `a`,
`create_index` on `(t, [a])` silently aborts leaving catalog, registry and
metadata file untouched and no index file behind. -/
theorem create_index_duplicate_silent_abort_witness :
    (create_index stDup "t" ["a"] (some ⟨0⟩)).2 = none ∧
    (create_index stDup "t" ["a"] (some ⟨0⟩)).1.db_ = stDup.db_ ∧
    (create_index stDup "t" ["a"] (some ⟨0⟩)).1.ihs_ = stDup.ihs_ ∧
    (create_index stDup "t" ["a"] (some ⟨0⟩)).1.metaFile = stDup.metaFile ∧
    (create_index stDup "t" ["a"] (some ⟨0⟩)).1.ix_files = stDup.ix_files ∧
    get_index_name "t" ["a"] ∉
      (create_index stDup "t" ["a"] (some ⟨0⟩)).1.ix_files ∧
    (create_index stDup "t" ["a"] (some ⟨0⟩)).1.trace = stDup.trace ++
      [Event.allocKey, Event.freeKey,
       Event.closeIndex (get_index_name "t" ["a"]),
       Event.destroyIndex (get_index_name "t" ["a"])] :=
  create_index_duplicate_silent_abort stDup "t" ["a"] (some ⟨0⟩) tab0
    [colMetaA]
    ⟨12, [(0, List.replicate 12 0), (1, 0 :: 0 :: 0 :: 0 :: List.replicate 8 1)]⟩
    (by decide) (by decide) (by decide) (by decide) (by decide)

/-- C8: the two `drop_index` overloads are the same operation: whenever the
column metadata's names are the given column names in the same order, the
by-metadata overload and the by-names overload return identical states and
identical outcomes — in particular they fail under the same `NotFound`
condition and otherwise perform the same close, destruction, registry
removal, `IndexMeta` removal and metadata flush. -/
theorem drop_index_shapes_equivalent (st : SmState) (tab_name : String)
    (cols : List ColMeta) (col_names : List String)
    (h : cols.map ColMeta.name = col_names) :
    drop_index_cols st tab_name cols = drop_index_names st tab_name col_names := by
  subst h
  rfl

/-- C8 witness: dropping the index on `(t, [a])` through either overload
gives the same result on `stBase`. -/
theorem drop_index_shapes_equivalent_witness :
    drop_index_cols stBase "t" [colMetaA] = drop_index_names stBase "t" ["a"] :=
  drop_index_shapes_equivalent stBase "t" [colMetaA] ["a"] (by decide)

/-- C9: with the usual preconditions of a successful build (fresh canonical
index file, existing table, resolvable columns, existing record file), the
null-dereference outcome of `create_index` — `context->txn_` is dereferenced
on every insertion with no null check — is reached exactly when the context
is null and the table has at least one live record. -/
theorem create_index_null_context_iff (st : SmState) (tab_name : String)
    (col_names : List String) (ctx : Option Context) (tab : TabMeta)
    (cols : List ColMeta) (rmf : RmFile)
    (h1 : get_index_name tab_name col_names ∉ st.ix_files)
    (h2 : assocLookup st.db_.tabs_ tab_name = some tab)
    (h3 : resolveCols tab col_names = some cols)
    (h4 : assocLookup st.rm_files tab_name = some rmf) :
    ((create_index st tab_name col_names ctx).2 = some Err.nullDeref ↔
      (ctx = none ∧ rmf.records ≠ [])) := by
  simp only [create_index]
  rw [if_neg h1]
  simp only [h2, h3, h4]
  cases ctx with
  | none =>
    cases hr : rmf.records with
    | nil => simp [hr, buildEntries]
    | cons r rest => simp [hr, buildEntries]
  | some c =>
    rcases hb : buildEntries cols (some c) rmf.records ⟨[]⟩ with ih | - | -
    · simp [hb]
    · simp [hb]
    · exact absurd hb (buildEntries_some_ne_nullDeref cols c rmf.records ⟨[]⟩)

/-- C9 witness: on `stBase` (two live records) a null context makes
`create_index` hit the null dereference. -/
theorem create_index_null_context_iff_witness :
    (create_index stBase "t" ["a"] none).2 = some Err.nullDeref :=
  (create_index_null_context_iff stBase "t" ["a"] none tab0 [colMetaA]
      ⟨12, [(0, List.replicate 12 0), (1, 1 :: List.replicate 11 0)]⟩
      (by decide) (by decide) (by decide) (by decide)).mpr
    ⟨rfl, by decide⟩

/-- C4: on a successful `create_index` over a table whose composite keys are
all distinct, the registered handle holds exactly one (key, record id) pair
per live record in scan order, each key being the concatenation of the
resolved columns' byte ranges with length equal to the sum of the resolved
lengths; the table's `IndexMeta` list gains exactly the new entry (resolved
columns, total key length, column count) and the catalog is persisted. -/
theorem create_index_success_builds_all_keys (st : SmState) (tab_name : String)
    (col_names : List String) (c : Context) (tab : TabMeta)
    (cols : List ColMeta) (rmf : RmFile)
    (h1 : get_index_name tab_name col_names ∉ st.ix_files)
    (h2 : assocLookup st.db_.tabs_ tab_name = some tab)
    (h3 : resolveCols tab col_names = some cols)
    (h4 : assocLookup st.rm_files tab_name = some rmf)
    (h5 : (rmf.records.map (fun r => makeKey cols r.2)).Nodup)
    (h6 : ∀ r ∈ rmf.records, ∀ cm ∈ cols, cm.offset + cm.len ≤ r.2.length) :
    (create_index st tab_name col_names (some c)).2 = none ∧
    assocLookup (create_index st tab_name col_names (some c)).1.ihs_
        (get_index_name tab_name col_names) =
      some ⟨rmf.records.map (fun r => (makeKey cols r.2, r.1))⟩ ∧
    (∀ e ∈ rmf.records.map (fun r => (makeKey cols r.2, r.1)),
      e.1.length = (cols.map ColMeta.len).sum) ∧
    assocLookup (create_index st tab_name col_names (some c)).1.db_.tabs_
        tab_name =
      some { tab with indexes := tab.indexes ++
        [⟨tab_name, (cols.map ColMeta.len).sum, col_names.length, cols⟩] } ∧
    (create_index st tab_name col_names (some c)).1.metaFile =
      some (create_index st tab_name col_names (some c)).1.db_ := by
  have hb := buildEntries_ok cols c rmf.records ⟨[]⟩ (by simpa using h5)
  simp only [create_index]
  rw [if_neg h1]
  simp only [h2, h3, h4, hb]
  refine ⟨trivial, ?_, ?_, ?_, ?_⟩
  · simp only [flushMeta]
    simpa using assocLookup_insert_self _ _ _
  · intro e he
    obtain ⟨r, hr, rfl⟩ := List.mem_map.mp he
    exact makeKey_length cols r.2 (h6 r hr)
  · simp only [flushMeta]
    exact assocLookup_insert_self _ _ _
  · rfl

/-- C4 witness: building the index on `(t, [a])` over `stBase`'s two
distinct-keyed records inserts exactly the two (key, record id) pairs. -/
theorem create_index_success_builds_all_keys_witness :
    (create_index stBase "t" ["a"] (some ⟨0⟩)).2 = none ∧
    assocLookup (create_index stBase "t" ["a"] (some ⟨0⟩)).1.ihs_
        (get_index_name "t" ["a"]) =
      some ⟨([(0, List.replicate 12 0),
              (1, 1 :: List.replicate 11 0)] : List (Nat × List Nat)).map
        (fun r => (makeKey [colMetaA] r.2, r.1))⟩ ∧
    (∀ e ∈ ([(0, List.replicate 12 0),
             (1, 1 :: List.replicate 11 0)] : List (Nat × List Nat)).map
        (fun r => (makeKey [colMetaA] r.2, r.1)),
      e.1.length = ([colMetaA].map ColMeta.len).sum) ∧
    assocLookup (create_index stBase "t" ["a"] (some ⟨0⟩)).1.db_.tabs_ "t" =
      some { tab0 with indexes := tab0.indexes ++
        [⟨"t", ([colMetaA].map ColMeta.len).sum, (["a"] : List String).length,
          [colMetaA]⟩] } ∧
    (create_index stBase "t" ["a"] (some ⟨0⟩)).1.metaFile =
      some (create_index stBase "t" ["a"] (some ⟨0⟩)).1.db_ :=
  create_index_success_builds_all_keys stBase "t" ["a"] ⟨0⟩ tab0 [colMetaA]
    ⟨12, [(0, List.replicate 12 0), (1, 1 :: List.replicate 11 0)]⟩
    (by decide) (by decide) (by decide) (by decide) (by decide) (by decide)

/-! Lemmas about `drop_table`'s per-index loop. -/

theorem dropIndexStep_db (t : String) (s : SmState) (i : IndexMeta) :
    (dropIndexStep t s i).db_ = s.db_ := rfl

theorem dropIndexStep_fhs (t : String) (s : SmState) (i : IndexMeta) :
    (dropIndexStep t s i).fhs_ = s.fhs_ := rfl

theorem dropIndexStep_metaFile (t : String) (s : SmState) (i : IndexMeta) :
    (dropIndexStep t s i).metaFile = s.metaFile := rfl

theorem dropIndexStep_ihs (t : String) (s : SmState) (i : IndexMeta) :
    (dropIndexStep t s i).ihs_ =
      assocErase s.ihs_ (get_index_name_cols t i.cols) := rfl

theorem dropIndexStep_trace (t : String) (s : SmState) (i : IndexMeta) :
    (dropIndexStep t s i).trace = s.trace ++
      [Event.closeIndex (get_index_name_cols t i.cols),
       Event.destroyIndex (get_index_name_cols t i.cols)] := by
  simp [dropIndexStep]

theorem foldl_dropIndexStep_db (t : String) :
    ∀ (l : List IndexMeta) (s : SmState),
    (l.foldl (dropIndexStep t) s).db_ = s.db_ := by
  intro l
  induction l with
  | nil => intro s; rfl
  | cons i rest IH =>
    intro s
    simpa [List.foldl_cons] using IH (dropIndexStep t s i)

theorem foldl_dropIndexStep_fhs (t : String) :
    ∀ (l : List IndexMeta) (s : SmState),
    (l.foldl (dropIndexStep t) s).fhs_ = s.fhs_ := by
  intro l
  induction l with
  | nil => intro s; rfl
  | cons i rest IH =>
    intro s
    simpa [List.foldl_cons] using IH (dropIndexStep t s i)

theorem foldl_dropIndexStep_ihs_none (t : String) :
    ∀ (l : List IndexMeta) (s : SmState) (k : String),
    assocLookup s.ihs_ k = none →
    assocLookup (l.foldl (dropIndexStep t) s).ihs_ k = none := by
  intro l
  induction l with
  | nil => intro s k h; exact h
  | cons i rest IH =>
    intro s k h
    refine IH (dropIndexStep t s i) k ?_
    rw [dropIndexStep_ihs]
    exact assocLookup_erase_none _ _ _ h

/-- After the loop, every index of the list has its registry entry (under
the canonical name) removed. -/
theorem foldl_dropIndexStep_ihs_erased (t : String) :
    ∀ (l : List IndexMeta) (s : SmState), ∀ i ∈ l,
    assocLookup (l.foldl (dropIndexStep t) s).ihs_
      (get_index_name_cols t i.cols) = none := by
  intro l
  induction l with
  | nil => intro s i hi; simp at hi
  | cons j rest IH =>
    intro s i hi
    rcases List.mem_cons.mp hi with h | h
    · subst h
      simp only [List.foldl_cons]
      refine foldl_dropIndexStep_ihs_none t rest (dropIndexStep t s i) _ ?_
      rw [dropIndexStep_ihs]
      exact assocLookup_erase_self _ _
    · simpa [List.foldl_cons] using IH (dropIndexStep t s j) i h

/-- The collaborator events emitted by the per-index loop: for each index,
its handle close immediately followed by its structure destruction. -/
def indexEvents (t : String) : List IndexMeta → List Event
  | [] => []
  | i :: rest => Event.closeIndex (get_index_name_cols t i.cols) ::
      Event.destroyIndex (get_index_name_cols t i.cols) :: indexEvents t rest

theorem foldl_dropIndexStep_trace (t : String) :
    ∀ (l : List IndexMeta) (s : SmState),
    (l.foldl (dropIndexStep t) s).trace = s.trace ++ indexEvents t l := by
  intro l
  induction l with
  | nil => intro s; simp [indexEvents]
  | cons i rest IH =>
    intro s
    simp only [List.foldl_cons, IH (dropIndexStep t s i), dropIndexStep_trace,
      indexEvents]
    simp

/-- Inside the loop's event list, each index's close event occurs strictly
before its destroy event. -/
theorem indexEvents_close_before_destroy (t : String) :
    ∀ (l : List IndexMeta), ∀ i ∈ l, ∃ l1 l2 : List Event,
    indexEvents t l =
      l1 ++ Event.closeIndex (get_index_name_cols t i.cols) :: l2 ∧
    Event.destroyIndex (get_index_name_cols t i.cols) ∈ l2 := by
  intro l
  induction l with
  | nil => intro i hi; simp at hi
  | cons j rest IH =>
    intro i hi
    rcases List.mem_cons.mp hi with h | h
    · subst h
      exact ⟨[], Event.destroyIndex (get_index_name_cols t i.cols) ::
        indexEvents t rest, by simp [indexEvents], by simp⟩
    · obtain ⟨l1, l2, hl, hm⟩ := IH i h
      exact ⟨Event.closeIndex (get_index_name_cols t j.cols) ::
        Event.destroyIndex (get_index_name_cols t j.cols) :: l1, l2,
        by simp [indexEvents, hl], hm⟩

/-- C6: `drop_table` removes the table (hence every one of its `IndexMeta`)
from the catalog and the record-handle registry, removes each of its
indexes' entries from the index-handle registry, closes each index handle
strictly before destroying its on-disk structure (visible in the event
trace), persists the catalog, and afterwards a `drop_index` lookup of any
index on the table fails with a `NotFound`-kind error. -/
theorem drop_table_removes_indexes (st : SmState) (tab_name : String)
    (tab : TabMeta) (h : assocLookup st.db_.tabs_ tab_name = some tab) :
    (drop_table st tab_name).2 = none ∧
    assocLookup (drop_table st tab_name).1.db_.tabs_ tab_name = none ∧
    assocLookup (drop_table st tab_name).1.fhs_ tab_name = none ∧
    (∀ i ∈ tab.indexes,
      assocLookup (drop_table st tab_name).1.ihs_
        (get_index_name_cols tab_name i.cols) = none) ∧
    (∀ i ∈ tab.indexes, ∃ l1 l2 : List Event,
      (drop_table st tab_name).1.trace =
        l1 ++ Event.closeIndex (get_index_name_cols tab_name i.cols) :: l2 ∧
      Event.destroyIndex (get_index_name_cols tab_name i.cols) ∈ l2) ∧
    (drop_table st tab_name).1.metaFile =
      some (drop_table st tab_name).1.db_ ∧
    (∀ col_names : List String, ∃ e : Err,
      (drop_index_names (drop_table st tab_name).1 tab_name col_names).2 =
        some e ∧ e.isNotFound = true) := by
  have htabs : (drop_table st tab_name).1.db_.tabs_ =
      assocErase st.db_.tabs_ tab_name := by
    simp only [drop_table, h, flushMeta]
    rw [foldl_dropIndexStep_db]
  have htabs_none :
      assocLookup (drop_table st tab_name).1.db_.tabs_ tab_name = none := by
    rw [htabs]; exact assocLookup_erase_self _ _
  refine ⟨?_, htabs_none, ?_, ?_, ?_, ?_, ?_⟩
  · simp [drop_table, h, flushMeta]
  · simp only [drop_table, h, flushMeta]
    rw [foldl_dropIndexStep_fhs]
    exact assocLookup_erase_self _ _
  · intro i hi
    simp only [drop_table, h, flushMeta]
    exact foldl_dropIndexStep_ihs_erased tab_name tab.indexes _ i hi
  · intro i hi
    obtain ⟨l1, l2, hl, hm⟩ :=
      indexEvents_close_before_destroy tab_name tab.indexes i hi
    refine ⟨st.trace ++ [Event.closeFile tab_name, Event.destroyFile tab_name]
      ++ l1, l2, ?_, hm⟩
    simp only [drop_table, h, flushMeta]
    rw [foldl_dropIndexStep_trace]
    simp [hl]
  · simp only [drop_table, h, flushMeta]
  · intro col_names
    exact ⟨Err.tableNotFound, by simp [drop_index_names, htabs_none], rfl⟩

/-- C6 witness: dropping table `t` of `stBase2Idx` (which carries the two
indexes `idxA`, `idxB` with their files and canonically-keyed handles)
removes everything and later index drops on `t` fail NotFound. -/
theorem drop_table_removes_indexes_witness :
    (drop_table stBase2Idx "t").2 = none ∧
    assocLookup (drop_table stBase2Idx "t").1.db_.tabs_ "t" = none ∧
    assocLookup (drop_table stBase2Idx "t").1.fhs_ "t" = none ∧
    (∀ i ∈ tab2.indexes,
      assocLookup (drop_table stBase2Idx "t").1.ihs_
        (get_index_name_cols "t" i.cols) = none) ∧
    (∀ i ∈ tab2.indexes, ∃ l1 l2 : List Event,
      (drop_table stBase2Idx "t").1.trace =
        l1 ++ Event.closeIndex (get_index_name_cols "t" i.cols) :: l2 ∧
      Event.destroyIndex (get_index_name_cols "t" i.cols) ∈ l2) ∧
    (drop_table stBase2Idx "t").1.metaFile =
      some (drop_table stBase2Idx "t").1.db_ ∧
    (∀ col_names : List String, ∃ e : Err,
      (drop_index_names (drop_table stBase2Idx "t").1 "t" col_names).2 =
        some e ∧ e.isNotFound = true) :=
  drop_table_removes_indexes stBase2Idx "t" tab2 (by decide)

/-! Frame lemma for C10. -/

/-- No branch of `create_index` changes any table's column sequence (and in
particular no column's `index` flag): only the `indexes` list of the target
table may gain an entry. -/
theorem create_index_preserves_cols_aux (st : SmState) (tab_name : String)
    (col_names : List String) (ctx : Option Context) (u : String) :
    (assocLookup (create_index st tab_name col_names ctx).1.db_.tabs_ u).map
      TabMeta.cols = (assocLookup st.db_.tabs_ u).map TabMeta.cols := by
  simp only [create_index]
  split
  · rfl
  · split
    · rfl
    · next table_meta heq =>
      split
      · rfl
      · next cols heq2 =>
        split
        · rfl
        · next rmf heq3 =>
          split
          · rfl
          · rfl
          · next ih heq4 =>
            simp only [flushMeta]
            by_cases hu : tab_name = u
            · subst hu
              rw [assocLookup_insert_self, heq]
              rfl
            · rw [assocLookup_insert_ne _ _ hu]

/-- C10: `create_index` leaves every `ColMeta.index` flag unchanged — it
only appends to the target table's `indexes` list — so when the table's
flags were all `false` as `create_table` set them, `desc_table` afterwards
reports every column as not indexed. -/
theorem create_index_preserves_col_index_flags (st : SmState)
    (tab_name : String) (col_names : List String) (ctx : Option Context) :
    (∀ u,
      (assocLookup (create_index st tab_name col_names ctx).1.db_.tabs_ u).map
        TabMeta.cols = (assocLookup st.db_.tabs_ u).map TabMeta.cols) ∧
    (∀ tab tab', assocLookup st.db_.tabs_ tab_name = some tab →
      assocLookup (create_index st tab_name col_names ctx).1.db_.tabs_
        tab_name = some tab' →
      (∀ cm ∈ tab.cols, cm.index = false) →
      ∀ row ∈ descRows tab', row.getD 2 "" = "NO") := by
  refine ⟨fun u => create_index_preserves_cols_aux st tab_name col_names ctx u,
    ?_⟩
  intro tab tab' h1 h2 hflags row hrow
  have hcols : tab'.cols = tab.cols := by
    have hx := create_index_preserves_cols_aux st tab_name col_names ctx
      tab_name
    rw [h1, h2] at hx
    simpa using hx
  rw [descRows, hcols] at hrow
  obtain ⟨cm, hcm, rfl⟩ := List.mem_map.mp hrow
  simp [hflags cm hcm]

/-- C10 witness: after successfully creating the index on `(t, [a])` over
`stBase`, `desc_table`'s rows for `t` all report `NO` in the index
column. -/
theorem create_index_preserves_col_index_flags_witness :
    ∀ row ∈ descRows ⟨"t", [colMetaA, colMetaB], [⟨"t", 4, 1, [colMetaA]⟩]⟩,
      row.getD 2 "" = "NO" :=
  (create_index_preserves_col_index_flags stBase "t" ["a"] (some ⟨0⟩)).2
    tab0 ⟨"t", [colMetaA, colMetaB], [⟨"t", 4, 1, [colMetaA]⟩]⟩
    (by decide) (by decide) (by decide)

end Rucbase
